import Mathlib

/-!
Verification of the employee-management-system repository.

Numeric values (Python `int`/`float`, SQL `INTEGER`/`DECIMAL`) are modelled as
`Int`/`ℚ`; Python's `float(x)` conversion on a numeric value is modelled as the
identity on `ℚ`.  The relational table of `src/db/db_utils.py` is modelled as a
list of rows together with the next id the `SERIAL` column will assign.
-/

namespace EMS

/-- Python's built-in `sorted` on a list of numbers: ascending stable sort. -/
def sortAsc (l : List ℚ) : List ℚ := l.insertionSort (· ≤ ·)

/-- Python's `float()` applied to a value that is already numeric: identity in
the `ℚ` model. -/
def pyFloat (x : ℚ) : ℚ := x

/-- From models/employee.py: `Employee` (with the `Person` base class flattened in):
name and age from `Person.__init__`, then salary, department and the optional
`employee_id` from `Employee.__init__`. -/
structure Employee where
  name : String
  age : Int
  salary : ℚ
  department : String
  employee_id : Option Int
deriving DecidableEq

/-- The dictionary produced by `Employee.get_info` / consumed by
`Employee.from_dict`: keys `name`, `age` (from `Person.get_info`) and `id`,
`salary`, `department`. -/
structure EmployeeInfo where
  name : String
  age : Int
  id : Option Int
  salary : ℚ
  department : String
deriving DecidableEq

namespace Employee

/-- From models/employee.py: `Employee.get_info`, the person fields plus
`id`, `float(self.salary)` and `department`. -/
def get_info (e : Employee) : EmployeeInfo :=
  { name := e.name
    age := e.age
    id := e.employee_id
    salary := pyFloat e.salary
    department := e.department }

/-- From models/employee.py: `Employee.from_dict`, rebuild an employee from the
dictionary keys `name`, `age`, `salary`, `department`, `id`. -/
def from_dict (d : EmployeeInfo) : Employee :=
  { name := d.name
    age := d.age
    salary := d.salary
    department := d.department
    employee_id := d.id }

end Employee

namespace HRManager

/-- The common body of `HRManager.calculate_median_age` and
`calculate_median_salary` (`models/hr_manager.py`): return `None` on an empty
collection, otherwise sort the values ascending and take the middle element
(odd count) or the mean of the two middle elements (even count), with the
source's indices `n // 2 - 1` and `n // 2`. -/
def pythonMedian (values : List ℚ) : Option ℚ :=
  if values = [] then none
  else
    let v := sortAsc values
    let n := v.length
    if n % 2 = 0 then some ((v.getD (n / 2 - 1) 0 + v.getD (n / 2) 0) / 2)
    else some (v.getD (n / 2) 0)

/-- From hr_manager.py: `HRManager.calculate_median_age`, median of `[emp.age for emp in employees]`. -/
def calculate_median_age (employees : List Employee) : Option ℚ :=
  pythonMedian (employees.map fun e => (e.age : ℚ))

/-- From hr_manager.py: `HRManager.calculate_median_salary`, median of
`[float(emp.salary) for emp in employees]`. -/
def calculate_median_salary (employees : List Employee) : Option ℚ :=
  pythonMedian (employees.map fun e => pyFloat e.salary)

/-- From hr_manager.py: `HRManager.remove_employee`, delete the first employee whose
`employee_id` equals the argument and return `True`; return `False` when no
employee matches. -/
def remove_employee (employees : List Employee) (eid : Int) :
    Bool × List Employee :=
  match employees with
  | [] => (false, [])
  | e :: es =>
      if e.employee_id = some eid then (true, es)
      else
        let r := remove_employee es eid
        (r.1, e :: r.2)

end HRManager

/-- One row of the `employees` table created by `db_utils.init_database`:
`id SERIAL PRIMARY KEY, name, age, salary, department` (the `created_at`
column is never read by any operation under verification and is omitted). -/
structure Row where
  id : Int
  name : String
  age : Int
  salary : ℚ
  department : String
deriving DecidableEq

/-- The state of the store: the table contents plus the next value of the
`SERIAL` id sequence. -/
structure DB where
  next_id : Int
  rows : List Row
deriving DecidableEq

/-- Well-formedness maintained by the storage engine: every assigned id is
below the sequence value, and ids are unique (`id` is the primary key). -/
def WF (db : DB) : Prop :=
  (∀ r ∈ db.rows, r.id < db.next_id) ∧ (db.rows.map Row.id).Nodup

namespace DbUtils

/-- From db_utils.py: `add_employee`, `INSERT INTO employees (name, age, salary,
department) VALUES (...) RETURNING id, name, age, salary, department` —
the new row gets the next serial id and is appended to the table; the
returned dictionary carries the stored fields with `float(salary)`. -/
def add_employee (name : String) (age : Int) (salary : ℚ)
    (department : String) (db : DB) : Row × DB :=
  let r : Row :=
    { id := db.next_id, name := name, age := age,
      salary := pyFloat salary, department := department }
  (r, { next_id := db.next_id + 1, rows := db.rows ++ [r] })

/-- Comparison used by `ORDER BY id`: rows ordered by their id column. -/
def rowIdLe (a b : Row) : Prop := a.id ≤ b.id

instance : DecidableRel rowIdLe := fun a b =>
  inferInstanceAs (Decidable (a.id ≤ b.id))

instance : IsTotal Row rowIdLe := ⟨fun a b => le_total a.id b.id⟩

instance : IsTrans Row rowIdLe := ⟨fun _ _ _ h1 h2 => le_trans h1 h2⟩

/-- The `ORDER BY id` of `db_utils.get_all_employees`. -/
def sortById (rows : List Row) : List Row :=
  rows.insertionSort rowIdLe

/-- From db_utils.py: `get_all_employees`, `SELECT id, name, age, salary, department
FROM employees ORDER BY id`. -/
def get_all_employees (db : DB) : List Row :=
  sortById db.rows

/-- From db_utils.py: `delete_employee_by_id`, `DELETE FROM employees WHERE id = %s`;
`rowcount` is the number of rows matching the predicate, the function returns
`rows_deleted > 0`. -/
def delete_employee_by_id (eid : Int) (db : DB) : Bool × DB :=
  let rows_deleted := db.rows.countP (fun r => r.id == eid)
  (decide (rows_deleted > 0),
   { db with rows := db.rows.filter (fun r => !(r.id == eid)) })

/-- Modelled from the spec: the storage engine's
`PERCENTILE_CONT(0.5) WITHIN GROUP (ORDER BY col)` — the "continuous
percentile at 0.5" of the column (the engine itself is an external dependency
not present under src/).  Over the ascending-sorted values `v` of count `n`,
the target row number is `rn = 0.5 * (n - 1)` and the result interpolates
linearly between the rows at `⌊rn⌋` and `⌊rn⌋ + 1`; an aggregate over an
empty table yields NULL, which `db_utils.get_median_age`/`get_median_salary`
turn into `None`. -/
def percentileContHalf (values : List ℚ) : Option ℚ :=
  let v := sortAsc values
  let n := v.length
  if n = 0 then none
  else
    let rn : ℚ := (1 / 2) * ((n : ℚ) - 1)
    let k : ℤ := ⌊rn⌋
    let frac : ℚ := rn - (k : ℚ)
    some ((1 - frac) * v.getD k.toNat 0 + frac * v.getD (k.toNat + 1) 0)

/-- From db_utils.py: `get_median_age`, the percentile query over the `age` column. -/
def get_median_age (db : DB) : Option ℚ :=
  percentileContHalf (db.rows.map fun r => (r.age : ℚ))

/-- From db_utils.py: `get_median_salary`, the percentile query over `salary`. -/
def get_median_salary (db : DB) : Option ℚ :=
  percentileContHalf (db.rows.map Row.salary)

end DbUtils

namespace Api

/-- From main.py: the `EmployeeCreate` pydantic model, the inbound create-employee
request body before validation. -/
structure EmployeeCreate where
  name : String
  age : Int
  salary : ℚ
  department : String
deriving DecidableEq

/-- The pydantic field constraints of `EmployeeCreate`:
`name: min_length=1, max_length=255`, `age: gt=0, le=150`, `salary: gt=0`,
`department: min_length=1, max_length=100`. -/
def validEmployeeCreate (e : EmployeeCreate) : Bool :=
  decide (1 ≤ e.name.length) && decide (e.name.length ≤ 255) &&
  decide (0 < e.age) && decide (e.age ≤ 150) &&
  decide (0 < e.salary) &&
  decide (1 ≤ e.department.length) && decide (e.department.length ≤ 100)

/-- Outcome of `POST /employee`: 201 with the created record, or the
422-equivalent validation failure FastAPI produces before the handler runs. -/
inductive CreateResponse where
  | created (r : Row)
  | unprocessable422
deriving DecidableEq

/-- From main.py: the `add_employee` endpoint together with FastAPI request
validation: an invalid body is rejected with 422 before the handler (and
hence before any storage call); a valid body is passed to
`db_utils.add_employee` and the created record returned with 201. -/
def post_employee (e : EmployeeCreate) (db : DB) : CreateResponse × DB :=
  if validEmployeeCreate e then
    let r := DbUtils.add_employee e.name e.age e.salary e.department db
    (.created r.1, r.2)
  else (.unprocessable422, db)

/-- Outcome of `DELETE /employee/{id}`: 200 with a message and the flag
`deleted: True`, or 404 with a detail message. -/
inductive DeleteResponse where
  | ok200 (message : String) (deleted : Bool)
  | notFound404 (detail : String)
deriving DecidableEq

/-- From main.py: the `delete_employee` endpoint, call
`db_utils.delete_employee_by_id`; on `True` answer 200 with a success
message and `deleted: True`, otherwise raise a 404 with a not-found detail. -/
def delete_employee (eid : Int) (db : DB) : DeleteResponse × DB :=
  let r := DbUtils.delete_employee_by_id eid db
  if r.1 then
    (.ok200 ("Employee with ID " ++ toString eid ++ " deleted successfully")
       true, r.2)
  else
    (.notFound404 ("Employee with ID " ++ toString eid ++ " not found"), r.2)

/-- An HTTP error produced by raising `HTTPException`. -/
structure ErrorResponse where
  status_code : Nat
  detail : String
deriving DecidableEq

/-- From main.py: the `add_employee` `except` branch, a storage failure with message
`cause` becomes `HTTPException(500, detail=f"Error adding employee: {cause}")`. -/
def storage_error_response_add (cause : String) : ErrorResponse :=
  { status_code := 500, detail := "Error adding employee: " ++ cause }

/-- From main.py: the `delete_employee` `except Exception` branch. -/
def storage_error_response_delete (cause : String) : ErrorResponse :=
  { status_code := 500, detail := "Error deleting employee: " ++ cause }

/-- From main.py: the `get_all_employees` `except` branch. -/
def storage_error_response_list (cause : String) : ErrorResponse :=
  { status_code := 500, detail := "Error retrieving employees: " ++ cause }

/-- From main.py: the `get_median_age` endpoint's `except` branch. -/
def storage_error_response_median_age (cause : String) : ErrorResponse :=
  { status_code := 500, detail := "Error calculating median age: " ++ cause }

/-- From main.py: the `get_median_salary` endpoint's `except` branch. -/
def storage_error_response_median_salary (cause : String) : ErrorResponse :=
  { status_code := 500, detail := "Error calculating median salary: " ++ cause }

/-- A detail string carries the underlying cause when the cause appears in it
verbatim. -/
def carriesCause (detail cause : String) : Prop :=
  ∃ pre suf, detail = pre ++ cause ++ suf

end Api

namespace Spec

/-- Written from the spec's words, for comparison with the code's median:
over the ascending-sorted column values, if the count is odd the median is
the middle value; if the count is even it is the arithmetic mean of the two
middle values. -/
def specMedianOfSorted (v : List ℚ) : ℚ :=
  if v.length % 2 = 1 then v.getD (v.length / 2) 0
  else (v.getD (v.length / 2 - 1) 0 + v.getD (v.length / 2) 0) / 2

end Spec

/-! General facts about the ascending sort, shared by several claims. -/

theorem sortAsc_perm (l : List ℚ) : (sortAsc l).Perm l :=
  List.perm_insertionSort _ l

theorem sortAsc_sorted (l : List ℚ) : (sortAsc l).Sorted (· ≤ ·) :=
  List.sorted_insertionSort _ l

theorem sortAsc_length (l : List ℚ) : (sortAsc l).length = l.length :=
  List.length_insertionSort _ l

theorem sortAsc_eq_of_perm {l l' : List ℚ} (h : l.Perm l') :
    sortAsc l = sortAsc l' :=
  List.eq_of_perm_of_sorted
    ((sortAsc_perm l).trans (h.trans (sortAsc_perm l').symm))
    (sortAsc_sorted l) (sortAsc_sorted l')

theorem sortAsc_eq_nil_iff {l : List ℚ} : sortAsc l = [] ↔ l = [] := by
  constructor
  · intro h
    have := sortAsc_length l
    rw [h] at this
    exact List.eq_nil_of_length_eq_zero this.symm
  · intro h
    subst h
    rfl

/-- Core agreement lemma: on every list of column values the in-memory
sort-and-pick-middle median coincides with the continuous-percentile-at-0.5
computation. -/
theorem pythonMedian_eq_percentileContHalf (values : List ℚ) :
    HRManager.pythonMedian values = DbUtils.percentileContHalf values := by
  unfold HRManager.pythonMedian DbUtils.percentileContHalf
  by_cases hv : values = []
  · subst hv
    simp [sortAsc]
  · have hn0 : (sortAsc values).length ≠ 0 := by
      rw [sortAsc_length]
      intro h
      exact hv (List.eq_nil_of_length_eq_zero h)
    simp only [if_neg hv, if_neg hn0]
    rcases Nat.even_or_odd (sortAsc values).length with he | ho
    · obtain ⟨m, hm⟩ := he
      have hm1 : 1 ≤ m := by omega
      have hmod : (sortAsc values).length % 2 = 0 := by omega
      have hdiv : (sortAsc values).length / 2 = m := by omega
      have hrn : (1 / 2 : ℚ) * (((sortAsc values).length : ℚ) - 1)
          = (m : ℚ) - 1 / 2 := by
        rw [hm]; push_cast; ring
      have hfloor : ⌊(m : ℚ) - 1 / 2⌋ = (m : ℤ) - 1 := by
        rw [Int.floor_eq_iff]
        constructor
        · push_cast
          linarith
        · push_cast
          linarith
      have htoNat : ((m : ℤ) - 1).toNat = m - 1 := by omega
      have hsucc : m - 1 + 1 = m := by omega
      rw [if_pos hmod, hrn, hfloor, hdiv, htoNat, hsucc]
      congr 1
      push_cast
      ring
    · obtain ⟨m, hm⟩ := ho
      have hmod : ¬((sortAsc values).length % 2 = 0) := by omega
      have hdiv : (sortAsc values).length / 2 = m := by omega
      have hrn : (1 / 2 : ℚ) * (((sortAsc values).length : ℚ) - 1)
          = (m : ℚ) := by
        rw [hm]; push_cast; ring
      have hfloor : ⌊(m : ℚ)⌋ = (m : ℤ) := Int.floor_natCast m
      have htoNat : ((m : ℤ)).toNat = m := by omega
      rw [if_neg hmod, hrn, hfloor, hdiv, htoNat]
      congr 1
      push_cast
      ring

theorem pythonMedian_eq_none_iff (values : List ℚ) :
    HRManager.pythonMedian values = none ↔ values = [] := by
  unfold HRManager.pythonMedian
  by_cases hv : values = []
  · simp [hv]
  · simp only [if_neg hv]
    constructor
    · intro h
      split at h <;> simp_all
    · intro h
      exact absurd h hv

theorem pythonMedian_congr_perm {l l' : List ℚ} (h : l.Perm l') :
    HRManager.pythonMedian l = HRManager.pythonMedian l' := by
  unfold HRManager.pythonMedian
  rw [sortAsc_eq_of_perm h]
  have hiff : l = [] ↔ l' = [] := by
    rw [← List.length_eq_zero, ← List.length_eq_zero, h.length_eq]
  by_cases hv : l = []
  · rw [if_pos hv, if_pos (hiff.mp hv)]
  · rw [if_neg hv, if_neg (fun hh => hv (hiff.mpr hh))]

theorem percentileContHalf_eq_none_iff (values : List ℚ) :
    DbUtils.percentileContHalf values = none ↔ values = [] := by
  rw [← pythonMedian_eq_percentileContHalf]
  exact pythonMedian_eq_none_iff values

theorem sortById_perm (rows : List Row) :
    (DbUtils.sortById rows).Perm rows :=
  List.perm_insertionSort _ rows

theorem sortById_sorted (rows : List Row) :
    (DbUtils.sortById rows).Sorted DbUtils.rowIdLe :=
  List.sorted_insertionSort _ rows

theorem wf_empty : WF ⟨1, []⟩ := by
  constructor
  · intro r hr
    exact absurd hr (List.not_mem_nil r)
  · exact List.nodup_nil

theorem wf_add (db : DB) (name : String) (age : Int) (salary : ℚ)
    (department : String) (h : WF db) :
    WF (DbUtils.add_employee name age salary department db).2 := by
  obtain ⟨hlt, hnd⟩ := h
  unfold DbUtils.add_employee WF
  dsimp only
  constructor
  · intro r hr
    rcases List.mem_append.mp hr with hr | hr
    · exact lt_trans (hlt r hr) (by omega)
    · rw [List.mem_singleton.mp hr]
      dsimp only
      omega
  · rw [List.map_append, List.nodup_append]
    refine ⟨hnd, List.nodup_singleton _, ?_⟩
    intro a ha hb
    obtain ⟨r, hr, hid⟩ := List.mem_map.mp ha
    have hbb : a = db.next_id := by simpa using hb
    have : r.id < db.next_id := hlt r hr
    omega

theorem wf_delete (db : DB) (eid : Int) (h : WF db) :
    WF (DbUtils.delete_employee_by_id eid db).2 := by
  obtain ⟨hlt, hnd⟩ := h
  unfold DbUtils.delete_employee_by_id WF
  dsimp only
  constructor
  · intro r hr
    exact hlt r (List.mem_of_mem_filter hr)
  · exact hnd.sublist (List.Sublist.map Row.id (List.filter_sublist _))

theorem delete_fst_true_iff (db : DB) (eid : Int) :
    (DbUtils.delete_employee_by_id eid db).1 = true ↔
      ∃ r ∈ db.rows, r.id = eid := by
  unfold DbUtils.delete_employee_by_id
  dsimp only
  rw [decide_eq_true_iff, gt_iff_lt, List.countP_pos_iff]
  constructor
  · rintro ⟨r, hr, hp⟩
    exact ⟨r, hr, by simpa using hp⟩
  · rintro ⟨r, hr, hp⟩
    exact ⟨r, hr, by simpa using hp⟩

theorem delete_twice_false (db : DB) (eid : Int) :
    (DbUtils.delete_employee_by_id eid
      (DbUtils.delete_employee_by_id eid db).2).1 = false := by
  rw [Bool.eq_false_iff]
  intro htrue
  obtain ⟨r, hr, hid⟩ := (delete_fst_true_iff _ eid).mp htrue
  have hmem : r ∈ db.rows.filter (fun r => !(r.id == eid)) := hr
  have hp := List.of_mem_filter hmem
  simp [hid] at hp

theorem delete_absent_eq (db : DB) (eid : Int)
    (h : ∀ r ∈ db.rows, r.id ≠ eid) :
    DbUtils.delete_employee_by_id eid db = (false, db) := by
  unfold DbUtils.delete_employee_by_id
  dsimp only
  have hfilter : db.rows.filter (fun r => !(r.id == eid)) = db.rows := by
    apply List.filter_eq_self.mpr
    intro r hr
    simpa using h r hr
  have hcount : db.rows.countP (fun r => r.id == eid) = 0 := by
    apply List.countP_eq_zero.mpr
    intro r hr
    simpa using h r hr
  rw [hfilter, hcount]
  rfl

theorem remove_employee_fst_iff (es : List Employee) (eid : Int) :
    (HRManager.remove_employee es eid).1 = true ↔
      ∃ e ∈ es, e.employee_id = some eid := by
  induction es with
  | nil => simp [HRManager.remove_employee]
  | cons e es ih =>
    unfold HRManager.remove_employee
    by_cases he : e.employee_id = some eid
    · simp [he]
    · rw [if_neg he]
      dsimp only
      rw [ih]
      constructor
      · rintro ⟨x, hx, hid⟩
        exact ⟨x, List.mem_cons_of_mem _ hx, hid⟩
      · rintro ⟨x, hx, hid⟩
        rcases List.mem_cons.mp hx with rfl | hx
        · exact absurd hid he
        · exact ⟨x, hx, hid⟩

/-- C10: reconstructing an employee from its dictionary form round-trips:
`Employee.from_dict (e.get_info)` has the same name, age, department and
employee id as `e`, and its salary is `float(e.salary)`. -/
theorem employee_info_roundtrip (e : Employee) :
    Employee.from_dict (Employee.get_info e) = e ∧
    (Employee.from_dict (Employee.get_info e)).salary = pyFloat e.salary :=
  ⟨rfl, rfl⟩

/-- C9 counterexample: for the concrete storage failure cause "connection
refused", the 500 response of the create endpoint carries the cause verbatim
inside its HTTP-facing detail message — the message is not sanitized. -/
theorem storage_error_detail_carries_cause_cex :
    Api.carriesCause
      (Api.storage_error_response_add "connection refused").detail
      "connection refused" ∧
    "connection refused" ≠ "" := by
  constructor
  · refine ⟨"Error adding employee: ", "", ?_⟩
    simp [Api.storage_error_response_add]
  · decide

/-- C9 (amended): a `StorageError` with message `cause` is mapped by every
API operation to a 500-equivalent response, and the HTTP-facing detail is an
operation-specific description that carries the underlying cause verbatim
(the cause is additionally logged at the storage layer). -/
theorem storage_error_maps_to_500 (cause : String) :
    (Api.storage_error_response_add cause).status_code = 500 ∧
    Api.carriesCause (Api.storage_error_response_add cause).detail cause ∧
    (Api.storage_error_response_delete cause).status_code = 500 ∧
    Api.carriesCause (Api.storage_error_response_delete cause).detail cause ∧
    (Api.storage_error_response_list cause).status_code = 500 ∧
    Api.carriesCause (Api.storage_error_response_list cause).detail cause ∧
    (Api.storage_error_response_median_age cause).status_code = 500 ∧
    Api.carriesCause
      (Api.storage_error_response_median_age cause).detail cause ∧
    (Api.storage_error_response_median_salary cause).status_code = 500 ∧
    Api.carriesCause
      (Api.storage_error_response_median_salary cause).detail cause := by
  refine ⟨rfl, ⟨"Error adding employee: ", "", ?_⟩,
    rfl, ⟨"Error deleting employee: ", "", ?_⟩,
    rfl, ⟨"Error retrieving employees: ", "", ?_⟩,
    rfl, ⟨"Error calculating median age: ", "", ?_⟩,
    rfl, ⟨"Error calculating median salary: ", "", ?_⟩⟩ <;>
  simp [Api.storage_error_response_add, Api.storage_error_response_delete,
    Api.storage_error_response_list, Api.storage_error_response_median_age,
    Api.storage_error_response_median_salary]

/-- C3: the in-memory medians and the storage-side medians return "no value"
(`None`) exactly when the collection of employees is empty, and a numeric
value exactly when at least one record is present. -/
theorem median_none_iff_empty :
    (∀ es : List Employee, HRManager.calculate_median_age es = none ↔ es = []) ∧
    (∀ es : List Employee,
      HRManager.calculate_median_salary es = none ↔ es = []) ∧
    (∀ db : DB, DbUtils.get_median_age db = none ↔ db.rows = []) ∧
    (∀ db : DB, DbUtils.get_median_salary db = none ↔ db.rows = []) := by
  refine ⟨fun es => ?_, fun es => ?_, fun db => ?_, fun db => ?_⟩
  · unfold HRManager.calculate_median_age
    rw [pythonMedian_eq_none_iff, List.map_eq_nil_iff]
  · unfold HRManager.calculate_median_salary
    rw [pythonMedian_eq_none_iff, List.map_eq_nil_iff]
  · unfold DbUtils.get_median_age
    rw [percentileContHalf_eq_none_iff, List.map_eq_nil_iff]
  · unfold DbUtils.get_median_salary
    rw [percentileContHalf_eq_none_iff, List.map_eq_nil_iff]

/-- C4: each constraint violation (empty name, age ≤ 0, age > 150,
salary ≤ 0, empty department) independently makes the create request answer
422 with the store left untouched, and every input satisfying all the
constraints passes validation. -/
theorem create_validation_spec :
    (∀ (e : Api.EmployeeCreate) (db : DB), e.name = "" →
      Api.post_employee e db = (Api.CreateResponse.unprocessable422, db)) ∧
    (∀ (e : Api.EmployeeCreate) (db : DB), e.age ≤ 0 →
      Api.post_employee e db = (Api.CreateResponse.unprocessable422, db)) ∧
    (∀ (e : Api.EmployeeCreate) (db : DB), 150 < e.age →
      Api.post_employee e db = (Api.CreateResponse.unprocessable422, db)) ∧
    (∀ (e : Api.EmployeeCreate) (db : DB), e.salary ≤ 0 →
      Api.post_employee e db = (Api.CreateResponse.unprocessable422, db)) ∧
    (∀ (e : Api.EmployeeCreate) (db : DB), e.department = "" →
      Api.post_employee e db = (Api.CreateResponse.unprocessable422, db)) ∧
    (∀ e : Api.EmployeeCreate,
      1 ≤ e.name.length → e.name.length ≤ 255 → 1 ≤ e.age → e.age ≤ 150 →
      0 < e.salary → 1 ≤ e.department.length → e.department.length ≤ 100 →
      Api.validEmployeeCreate e = true) := by
  have hrej : ∀ (e : Api.EmployeeCreate) (db : DB),
      ¬ (Api.validEmployeeCreate e = true) →
      Api.post_employee e db = (Api.CreateResponse.unprocessable422, db) := by
    intro e db hval
    unfold Api.post_employee
    rw [if_neg hval]
  refine ⟨?_, ?_, ?_, ?_, ?_, ?_⟩
  · intro e db he
    refine hrej e db ?_
    intro hval
    unfold Api.validEmployeeCreate at hval
    simp only [Bool.and_eq_true, decide_eq_true_eq] at hval
    rw [he] at hval
    simp at hval
  · intro e db he
    refine hrej e db ?_
    intro hval
    unfold Api.validEmployeeCreate at hval
    simp only [Bool.and_eq_true, decide_eq_true_eq] at hval
    omega
  · intro e db he
    refine hrej e db ?_
    intro hval
    unfold Api.validEmployeeCreate at hval
    simp only [Bool.and_eq_true, decide_eq_true_eq] at hval
    omega
  · intro e db he
    refine hrej e db ?_
    intro hval
    unfold Api.validEmployeeCreate at hval
    simp only [Bool.and_eq_true, decide_eq_true_eq] at hval
    exact absurd hval.1.1.2 (not_lt.mpr he)
  · intro e db he
    refine hrej e db ?_
    intro hval
    unfold Api.validEmployeeCreate at hval
    simp only [Bool.and_eq_true, decide_eq_true_eq] at hval
    rw [he] at hval
    simp at hval
  · intro e h1 h2 h3 h4 h5 h6 h7
    unfold Api.validEmployeeCreate
    simp only [Bool.and_eq_true, decide_eq_true_eq]
    exact ⟨⟨⟨⟨⟨⟨h1, h2⟩, by omega⟩, h4⟩, h5⟩, h6⟩, h7⟩

/-- C4 witness: concrete instances of each rejection and one accepted
input. -/
theorem create_validation_spec_witness :
    Api.post_employee ⟨"", 30, 1000, "Eng"⟩ ⟨1, []⟩ =
      (Api.CreateResponse.unprocessable422, ⟨1, []⟩) ∧
    Api.post_employee ⟨"Alice", 0, 1000, "Eng"⟩ ⟨1, []⟩ =
      (Api.CreateResponse.unprocessable422, ⟨1, []⟩) ∧
    Api.post_employee ⟨"Alice", 151, 1000, "Eng"⟩ ⟨1, []⟩ =
      (Api.CreateResponse.unprocessable422, ⟨1, []⟩) ∧
    Api.post_employee ⟨"Alice", 30, 0, "Eng"⟩ ⟨1, []⟩ =
      (Api.CreateResponse.unprocessable422, ⟨1, []⟩) ∧
    Api.post_employee ⟨"Alice", 30, 1000, ""⟩ ⟨1, []⟩ =
      (Api.CreateResponse.unprocessable422, ⟨1, []⟩) ∧
    Api.validEmployeeCreate ⟨"Alice", 30, 1000, "Eng"⟩ = true :=
  ⟨create_validation_spec.1 _ _ rfl,
   create_validation_spec.2.1 _ _ (by decide),
   create_validation_spec.2.2.1 _ _ (by decide),
   create_validation_spec.2.2.2.1 _ _ (by decide),
   create_validation_spec.2.2.2.2.1 _ _ rfl,
   create_validation_spec.2.2.2.2.2 _ (by decide) (by decide) (by decide)
     (by decide) (by decide) (by decide) (by decide)⟩

/-- C5: `deleteById` returns true exactly when a record with the id exists
(and removes it); a second delete of the same id returns false; deleting an
id just created returns true; and `HRManager.remove_employee` likewise
returns true exactly when some employee carries the id. -/
theorem deleteById_true_iff_present :
    (∀ (db : DB) (eid : Int),
      (DbUtils.delete_employee_by_id eid db).1 = true ↔
        ∃ r ∈ db.rows, r.id = eid) ∧
    (∀ (db : DB) (eid : Int),
      (DbUtils.delete_employee_by_id eid
        (DbUtils.delete_employee_by_id eid db).2).1 = false) ∧
    (∀ (db : DB) (name : String) (age : Int) (salary : ℚ) (department : String),
      (DbUtils.delete_employee_by_id
        (DbUtils.add_employee name age salary department db).1.id
        (DbUtils.add_employee name age salary department db).2).1 = true) ∧
    (∀ (es : List Employee) (eid : Int),
      (HRManager.remove_employee es eid).1 = true ↔
        ∃ e ∈ es, e.employee_id = some eid) := by
  refine ⟨delete_fst_true_iff, delete_twice_false, ?_, remove_employee_fst_iff⟩
  intro db name age salary department
  rw [delete_fst_true_iff]
  exact ⟨(DbUtils.add_employee name age salary department db).1,
    List.mem_append_right _ (List.mem_singleton_self _), rfl⟩

/-- C6: deleting an id absent from the store leaves the store unchanged,
the storage call reports false, and the API answers 404 not-found. -/
theorem delete_absent_frame (db : DB) (eid : Int)
    (h : ∀ r ∈ db.rows, r.id ≠ eid) :
    Api.delete_employee eid db =
      (Api.DeleteResponse.notFound404
        ("Employee with ID " ++ toString eid ++ " not found"), db) ∧
    DbUtils.delete_employee_by_id eid db = (false, db) := by
  have hdel := delete_absent_eq db eid h
  constructor
  · unfold Api.delete_employee
    rw [hdel]
    rfl
  · exact hdel

/-- C6 witness: deleting the non-existent id 9999 from a one-row store. -/
theorem delete_absent_frame_witness :
    Api.delete_employee 9999 ⟨2, [⟨1, "Alice", 30, 1000, "Eng"⟩]⟩ =
      (Api.DeleteResponse.notFound404
        ("Employee with ID " ++ toString (9999 : Int) ++ " not found"),
       ⟨2, [⟨1, "Alice", 30, 1000, "Eng"⟩]⟩) ∧
    DbUtils.delete_employee_by_id 9999 ⟨2, [⟨1, "Alice", 30, 1000, "Eng"⟩]⟩ =
      (false, ⟨2, [⟨1, "Alice", 30, 1000, "Eng"⟩]⟩) :=
  delete_absent_frame ⟨2, [⟨1, "Alice", 30, 1000, "Eng"⟩]⟩ 9999 (by decide)

/-- C7: `listAll` returns a permutation of the table ordered by ascending
id (strictly increasing under the store's key invariant, which holds for
the empty store and is preserved by every create and delete), and the empty
store yields the empty sequence. -/
theorem listAll_ordered_spec :
    (∀ db : DB, (DbUtils.get_all_employees db).Perm db.rows) ∧
    (∀ db : DB, (DbUtils.get_all_employees db).Sorted DbUtils.rowIdLe) ∧
    (∀ db : DB, db.rows = [] → DbUtils.get_all_employees db = []) ∧
    (∀ db : DB, WF db →
      (DbUtils.get_all_employees db).Pairwise (fun a b => a.id < b.id)) ∧
    WF ⟨1, []⟩ ∧
    (∀ (db : DB) (name : String) (age : Int) (salary : ℚ)
      (department : String),
      WF db → WF (DbUtils.add_employee name age salary department db).2) ∧
    (∀ (db : DB) (eid : Int),
      WF db → WF (DbUtils.delete_employee_by_id eid db).2) := by
  refine ⟨fun db => sortById_perm db.rows, fun db => sortById_sorted db.rows,
    ?_, ?_, wf_empty, wf_add, wf_delete⟩
  · intro db h
    unfold DbUtils.get_all_employees
    rw [h]
    rfl
  · intro db hwf
    have hperm := sortById_perm db.rows
    have hnd : ((DbUtils.get_all_employees db).map Row.id).Nodup :=
      ((hperm.map Row.id).nodup_iff).mpr hwf.2
    have hne : (DbUtils.get_all_employees db).Pairwise
        (fun a b => Row.id a ≠ Row.id b) := List.pairwise_map.mp hnd
    have hs : (DbUtils.get_all_employees db).Pairwise DbUtils.rowIdLe :=
      sortById_sorted db.rows
    exact (hs.and hne).imp fun h => lt_of_le_of_ne h.1 h.2

/-- C7 witness: the empty store and concrete preservation instances. -/
theorem listAll_ordered_spec_witness :
    DbUtils.get_all_employees ⟨1, []⟩ = [] ∧
    (DbUtils.get_all_employees ⟨1, []⟩).Pairwise (fun a b => a.id < b.id) ∧
    WF (DbUtils.add_employee "Alice" 30 1000 "Eng" ⟨1, []⟩).2 ∧
    WF (DbUtils.delete_employee_by_id 9999 ⟨1, []⟩).2 :=
  ⟨listAll_ordered_spec.2.2.1 ⟨1, []⟩ rfl,
   listAll_ordered_spec.2.2.2.1 ⟨1, []⟩ wf_empty,
   listAll_ordered_spec.2.2.2.2.2.1 ⟨1, []⟩ "Alice" 30 1000 "Eng" wf_empty,
   listAll_ordered_spec.2.2.2.2.2.2 ⟨1, []⟩ 9999 wf_empty⟩

/-- C8: after a create, `listAll` contains the created record, its stored
fields equal the input, and its id differs from the id of every record that
existed before the create. -/
theorem create_then_listAll_contains (db : DB) (name : String) (age : Int)
    (salary : ℚ) (department : String) (hwf : WF db) :
    (DbUtils.add_employee name age salary department db).1 ∈
      DbUtils.get_all_employees
        (DbUtils.add_employee name age salary department db).2 ∧
    (DbUtils.add_employee name age salary department db).1.name = name ∧
    (DbUtils.add_employee name age salary department db).1.age = age ∧
    (DbUtils.add_employee name age salary department db).1.salary = salary ∧
    (DbUtils.add_employee name age salary department db).1.department
      = department ∧
    ∀ r0 ∈ db.rows,
      r0.id ≠ (DbUtils.add_employee name age salary department db).1.id := by
  refine ⟨?_, rfl, rfl, rfl, rfl, ?_⟩
  · have hperm :=
      sortById_perm (DbUtils.add_employee name age salary department db).2.rows
    unfold DbUtils.get_all_employees
    exact hperm.mem_iff.mpr
      (List.mem_append_right _ (List.mem_singleton_self _))
  · intro r0 hr0
    have hlt := hwf.1 r0 hr0
    have hid : (DbUtils.add_employee name age salary department db).1.id
        = db.next_id := rfl
    omega

/-- C8 witness: creating a record in a store that already has one row. -/
theorem create_then_listAll_contains_witness :
    (DbUtils.add_employee "Bob" 40 2000 "Sales"
        ⟨2, [⟨1, "Alice", 30, 1000, "Eng"⟩]⟩).1 ∈
      DbUtils.get_all_employees
        (DbUtils.add_employee "Bob" 40 2000 "Sales"
          ⟨2, [⟨1, "Alice", 30, 1000, "Eng"⟩]⟩).2 ∧
    ∀ r0 ∈ (⟨2, [⟨1, "Alice", 30, 1000, "Eng"⟩]⟩ : DB).rows,
      r0.id ≠ (DbUtils.add_employee "Bob" 40 2000 "Sales"
        ⟨2, [⟨1, "Alice", 30, 1000, "Eng"⟩]⟩).1.id := by
  have h := create_then_listAll_contains
    ⟨2, [⟨1, "Alice", 30, 1000, "Eng"⟩]⟩ "Bob" 40 2000 "Sales"
    ⟨by decide, by decide⟩
  exact ⟨h.1, h.2.2.2.2.2⟩

/-- C1: the medians follow the spec's formula — the sort is an ascending
permutation of the values, the result is the spec's middle value (odd
count) or mean of the two middle values (even count), and the spec's
concrete examples evaluate as stated: ages [20, 30, 40] give 30, ages
[20, 30] give 25, salaries [50000, 60000, 70000, 80000] give 65000. -/
theorem median_semantics_matches_spec :
    (∀ values : List ℚ,
      (sortAsc values).Sorted (· ≤ ·) ∧ (sortAsc values).Perm values) ∧
    (∀ values : List ℚ, values ≠ [] →
      HRManager.pythonMedian values
        = some (Spec.specMedianOfSorted (sortAsc values))) ∧
    HRManager.calculate_median_age
      [⟨"A", 20, 1000, "Eng", some 1⟩, ⟨"B", 30, 1000, "Eng", some 2⟩,
       ⟨"C", 40, 1000, "Eng", some 3⟩] = some 30 ∧
    HRManager.calculate_median_age
      [⟨"A", 20, 1000, "Eng", some 1⟩, ⟨"B", 30, 1000, "Eng", some 2⟩]
      = some 25 ∧
    HRManager.calculate_median_salary
      [⟨"A", 30, 50000, "Eng", some 1⟩, ⟨"B", 30, 60000, "Eng", some 2⟩,
       ⟨"C", 30, 70000, "Eng", some 3⟩, ⟨"D", 30, 80000, "Eng", some 4⟩]
      = some 65000 := by
  refine ⟨fun values => ⟨sortAsc_sorted values, sortAsc_perm values⟩,
    ?_, ?_, ?_, ?_⟩
  · intro values hv
    unfold HRManager.pythonMedian Spec.specMedianOfSorted
    rw [if_neg hv]
    rcases Nat.mod_two_eq_zero_or_one (sortAsc values).length with h | h
    · rw [if_pos h, if_neg (by omega)]
    · rw [if_neg (by omega), if_pos h]
  · norm_num [HRManager.calculate_median_age, HRManager.pythonMedian, sortAsc]
    intro h
    simp at h
  · norm_num [HRManager.calculate_median_age, HRManager.pythonMedian, sortAsc]
    intro h
    simp at h
  · norm_num [HRManager.calculate_median_salary, HRManager.pythonMedian,
      pyFloat, sortAsc]
    intro h
    simp at h

/-- C1 witness: the spec formula instantiated on the values [20, 30, 40]. -/
theorem median_semantics_matches_spec_witness :
    HRManager.pythonMedian [20, 30, 40]
      = some (Spec.specMedianOfSorted (sortAsc [20, 30, 40])) :=
  median_semantics_matches_spec.2.1 [20, 30, 40] (by decide)

/-- C2: the in-memory median agrees with the storage engine's
continuous-percentile-at-0.5 on every list of column values, hence
`HRManager`'s medians and the SQL medians agree whenever the in-memory
collection holds the same multiset of ages (resp. salaries) as the table. -/
theorem inmemory_median_eq_percentile_cont :
    (∀ values : List ℚ,
      HRManager.pythonMedian values = DbUtils.percentileContHalf values) ∧
    (∀ (es : List Employee) (db : DB),
      (es.map fun e => (e.age : ℚ)).Perm (db.rows.map fun r => (r.age : ℚ)) →
      HRManager.calculate_median_age es = DbUtils.get_median_age db) ∧
    (∀ (es : List Employee) (db : DB),
      (es.map fun e => pyFloat e.salary).Perm (db.rows.map Row.salary) →
      HRManager.calculate_median_salary es = DbUtils.get_median_salary db) := by
  refine ⟨pythonMedian_eq_percentileContHalf, ?_, ?_⟩
  · intro es db hperm
    unfold HRManager.calculate_median_age DbUtils.get_median_age
    rw [pythonMedian_congr_perm hperm, pythonMedian_eq_percentileContHalf]
  · intro es db hperm
    unfold HRManager.calculate_median_salary DbUtils.get_median_salary
    rw [pythonMedian_congr_perm hperm, pythonMedian_eq_percentileContHalf]

/-- C2 witness: both paths on a concrete one-employee collection/table. -/
theorem inmemory_median_eq_percentile_cont_witness :
    HRManager.calculate_median_age [⟨"Alice", 30, 1000, "Eng", some 1⟩]
      = DbUtils.get_median_age ⟨2, [⟨1, "Alice", 30, 1000, "Eng"⟩]⟩ :=
  inmemory_median_eq_percentile_cont.2.1 _ _ (by decide)

end EMS
